import Mathlib

/-!
Verification of the masked-graph substrate of the contraction preprocessing
core (`include/util/filtered_graph.hpp` together with the interface declared
in `include/contractor/graph_contractor.hpp`).

The underlying adjacency stores (`util::StaticGraph`, `util::DynamicGraph`)
are not part of the two files under verification; they are modelled from the
specification of the AdjacencyStore component: contiguous per-node edge
ranges over a flat edge array, global edge ids being positions in that
array.  The masked views themselves are translated directly from
`FilteredGraphImpl` in `filtered_graph.hpp`.
-/

namespace OSRM

/-- Edge payload of the contractor graph: an ordered, summable weight plus a
flag distinguishing original edges from inserted shortcut edges (the fields
of the payload the two files under verification actually read). -/
structure EdgeData where
  weight : Int
  shortcut : Bool
deriving DecidableEq

/-- Modelled from the spec: the sentinel "no edge" id
(`SPECIAL_EDGEID = std::numeric_limits<unsigned>::max()`), defined outside
the two files under verification. -/
def SPECIAL_EDGEID : Nat := 4294967295

/-- Modelled from the spec: the sentinel "no node" id
(`SPECIAL_NODEID = std::numeric_limits<unsigned>::max()`); numerically the
same value as the edge sentinel, which is why `filtered_graph.hpp` can
compare edge ids against it. -/
def SPECIAL_NODEID : Nat := 4294967295

/-- Modelled from the spec: the sentinel edge weight
(`INVALID_EDGE_WEIGHT = std::numeric_limits<EdgeWeight>::max()` with
`EdgeWeight = std::int32_t`), defined outside the two files under
verification. -/
def INVALID_EDGE_WEIGHT : Int := 2147483647

/-- Default edge record used when an out-of-range position is read. -/
def dfltEdge : Nat × EdgeData := (SPECIAL_NODEID, ⟨INVALID_EDGE_WEIGHT, false⟩)

/-- Position of the first edge of node `n` in the flat edge array of an
adjacency structure given as per-node blocks (the `first_edge` offset of the
CSR layout described for the AdjacencyStore). -/
def blockFirst (adj : List (List α)) (n : Nat) : Nat :=
  ((adj.map List.length).take n).sum

/-- Number of edges stored for node `n`. -/
def blockLen (adj : List (List α)) (n : Nat) : Nat :=
  (adj.getD n []).length

/-- Total number of edges of the adjacency structure. -/
def totalLen (adj : List (List α)) : Nat :=
  (adj.map List.length).sum

/-- Global edge ids of node `n`: the contiguous range
`[blockFirst n, blockFirst n + blockLen n)`. -/
def blockRange (adj : List (List α)) (n : Nat) : List Nat :=
  List.range' (blockFirst adj n) (blockLen adj n)

/-- Record stored at global edge id `e` in the flat edge array. -/
def blockAt (adj : List (List α)) (e : Nat) : Option α :=
  adj.flatten[e]?

/-- Modelled from the spec: the static AdjacencyStore
(`util::StaticGraph`, not under the two files verified here): a fixed edge
array grouped into contiguous per-node ranges; each record holds the target
node and the edge payload. -/
structure StaticGraph where
  adj : List (List (Nat × EdgeData))
deriving DecidableEq

def StaticGraph.GetNumberOfNodes (G : StaticGraph) : Nat := G.adj.length

def StaticGraph.GetNumberOfEdges (G : StaticGraph) : Nat := totalLen G.adj

def StaticGraph.GetAdjacentEdgeRange (G : StaticGraph) (n : Nat) : List Nat :=
  blockRange G.adj n

def StaticGraph.GetTarget (G : StaticGraph) (e : Nat) : Nat :=
  ((blockAt G.adj e).getD dfltEdge).1

def StaticGraph.GetEdgeData (G : StaticGraph) (e : Nat) : EdgeData :=
  ((blockAt G.adj e).getD dfltEdge).2

/-- Modelled from the spec: renumbering of the static store relabels every
stored endpoint by the old-to-new node permutation: node `old_to_new n`
receives the (target-relabelled) edge block of old node `n`. -/
def renumberAdj (old_to_new : Nat → Nat) (f : α → α) (adj : List (List α)) :
    List (List α) :=
  (List.range adj.length).map (fun m =>
    match (List.range adj.length).find? (fun n => old_to_new n == m) with
    | some n => (adj.getD n []).map f
    | none => [])

def StaticGraph.Renumber (G : StaticGraph) (old_to_new : Nat → Nat) : StaticGraph :=
  ⟨renumberAdj old_to_new (fun q => (old_to_new q.1, q.2)) G.adj⟩

/-- Well-formedness used when an actual edge id must be distinguishable
from the sentinel: the store holds fewer than `SPECIAL_EDGEID` edges. -/
def StaticGraph.Wf (G : StaticGraph) : Prop :=
  G.GetNumberOfEdges < SPECIAL_EDGEID

instance (G : StaticGraph) : Decidable G.Wf := by
  unfold StaticGraph.Wf; infer_instance

/-- Static-mode masked view
(`FilteredGraphImpl<StaticGraph<EdgeDataT, Ownership>, Ownership>`,
filtered_graph.hpp lines 24-152): the borrowed store plus a detachable
bit-per-edge filter vector. -/
structure FilteredStaticGraph where
  graph : StaticGraph
  edge_filter : List Bool
deriving DecidableEq

def FilteredStaticGraph.maskBit (fg : FilteredStaticGraph) (e : Nat) : Bool :=
  fg.edge_filter.getD e false

def FilteredStaticGraph.GetNumberOfNodes (fg : FilteredStaticGraph) : Nat :=
  fg.graph.GetNumberOfNodes

/-- filtered_graph.hpp line 34: forwards to the underlying store, ignoring
the filter. -/
def FilteredStaticGraph.GetNumberOfEdges (fg : FilteredStaticGraph) : Nat :=
  fg.graph.GetNumberOfEdges

/-- filtered_graph.hpp lines 36-42: counts the edges of the underlying
adjacent range whose filter bit is set. -/
def FilteredStaticGraph.GetOutDegree (fg : FilteredStaticGraph) (n : Nat) : Nat :=
  ((fg.graph.GetAdjacentEdgeRange n).filter (fun e => fg.maskBit e)).length

/-- filtered_graph.hpp lines 44-48: `BOOST_ASSERT(edge_filter[e])` then the
underlying target.  The assertion is modelled as `Option`: `none` is the
assertion failure, `some` the value returned when the contract holds. -/
def FilteredStaticGraph.GetTarget? (fg : FilteredStaticGraph) (e : Nat) : Option Nat :=
  if fg.maskBit e then some (fg.graph.GetTarget e) else none

/-- filtered_graph.hpp lines 50-60, modelled like `GetTarget?`. -/
def FilteredStaticGraph.GetEdgeData? (fg : FilteredStaticGraph) (e : Nat) :
    Option EdgeData :=
  if fg.maskBit e then some (fg.graph.GetEdgeData e) else none

/-- filtered_graph.hpp lines 62-67: the underlying adjacent range filtered
by the mask bit. -/
def FilteredStaticGraph.GetAdjacentEdgeRange (fg : FilteredStaticGraph) (n : Nat) :
    List Nat :=
  (fg.graph.GetAdjacentEdgeRange n).filter (fun e => fg.maskBit e)

/-- Common search loop of both `FindEdge` overloads (filtered_graph.hpp
lines 70-80 and 205-216): return the first edge of the filtered range whose
target is `to`, else the sentinel. -/
def findEdgeIn (l : List Nat) (targetOf : Nat → Nat) (tgt : Nat) : Nat :=
  match l.find? (fun e => tgt == targetOf e) with
  | some e => e
  | none => SPECIAL_EDGEID

def FilteredStaticGraph.FindEdge (fg : FilteredStaticGraph) (frm tgt : Nat) : Nat :=
  findEdgeIn (fg.GetAdjacentEdgeRange frm) fg.graph.GetTarget tgt

/-- Loop body shared by both `FindSmallestEdge` overloads
(filtered_graph.hpp lines 91-101 and 227-237): keep the edge iff its target
is `to`, its weight beats the running smallest weight, and the auxiliary
data predicate accepts it. -/
def smallestStep (targetOf : Nat → Nat) (dataOf : Nat → EdgeData) (tgt : Nat)
    (p : EdgeData → Bool) (acc : Nat × Int) (e : Nat) : Nat × Int :=
  if targetOf e = tgt ∧ (dataOf e).weight < acc.2 ∧ p (dataOf e) = true then
    (e, (dataOf e).weight)
  else acc

/-- filtered_graph.hpp lines 82-103. -/
def FilteredStaticGraph.FindSmallestEdge (fg : FilteredStaticGraph) (frm tgt : Nat)
    (p : EdgeData → Bool) : Nat :=
  ((fg.GetAdjacentEdgeRange frm).foldl
    (smallestStep fg.graph.GetTarget fg.graph.GetEdgeData tgt p)
    (SPECIAL_EDGEID, INVALID_EDGE_WEIGHT)).1

/-- filtered_graph.hpp lines 105-109: the forward lookup, compared against
the (numerically identical) node sentinel, else the reverse lookup. -/
def FilteredStaticGraph.FindEdgeInEitherDirection (fg : FilteredStaticGraph)
    (frm tgt : Nat) : Nat :=
  let tmp := fg.FindEdge frm tgt
  if SPECIAL_NODEID ≠ tmp then tmp else fg.FindEdge tgt frm

/-- filtered_graph.hpp lines 111-124: the out-parameter `result` is taken as
the initial flag value and returned alongside the edge id; the source only
ever assigns `true` to it. -/
def FilteredStaticGraph.FindEdgeIndicateIfReverse (fg : FilteredStaticGraph)
    (frm tgt : Nat) (result : Bool) : Nat × Bool :=
  let ci := fg.FindEdge frm tgt
  if SPECIAL_NODEID = ci then
    let ci2 := fg.FindEdge tgt frm
    if SPECIAL_NODEID ≠ ci2 then (ci2, true) else (ci2, result)
  else (ci, result)

/-- filtered_graph.hpp lines 126-130: the explicit-vector constructor; its
`BOOST_ASSERT(edge_filter.size() == graph.GetNumberOfEdges())` is modelled
as `Option`, `none` being the assertion failure. -/
def FilteredStaticGraph.mkFromVector (G : StaticGraph) (v : List Bool) :
    Option FilteredStaticGraph :=
  if v.length = G.GetNumberOfEdges then some ⟨G, v⟩ else none

/-- filtered_graph.hpp lines 132-140: the predicate constructor materializes
the filter by evaluating the predicate on every edge id of the store (the
store's edge count is a scalar field of the static graph, so it is
unaffected by moving the vectors out of the constructor argument). -/
def FilteredStaticGraph.mkFromPred (G : StaticGraph) (f : Nat → Bool) :
    FilteredStaticGraph :=
  ⟨G, (List.range G.GetNumberOfEdges).map f⟩

/-- filtered_graph.hpp lines 142-147: delegates to the store; the
commented-out `inplacePermutation` on `edge_filter` is the FIXME in the
source, so the filter vector is left untouched. -/
def FilteredStaticGraph.Renumber (fg : FilteredStaticGraph)
    (old_to_new : Nat → Nat) : FilteredStaticGraph :=
  ⟨fg.graph.Renumber old_to_new, fg.edge_filter⟩

/-- Modelled from the spec: the dynamic AdjacencyStore
(`util::DynamicGraph`, not under the two files verified here), with the
same per-node block layout as the static store. -/
structure DynamicGraph where
  adj : List (List (Nat × EdgeData))
deriving DecidableEq

def DynamicGraph.GetNumberOfNodes (G : DynamicGraph) : Nat := G.adj.length

def DynamicGraph.GetNumberOfEdges (G : DynamicGraph) : Nat := totalLen G.adj

def DynamicGraph.GetTarget (G : DynamicGraph) (e : Nat) : Nat :=
  ((blockAt G.adj e).getD dfltEdge).1

/-- Edge record of the transformed dynamic graph
(`EdgeDataWithFilter`, filtered_graph.hpp lines 159-168): the original
payload plus the co-located filter bit. -/
structure DynEdge where
  target : Nat
  data : EdgeData
  filterBit : Bool
deriving DecidableEq

/-- Dynamic-mode masked view
(`FilteredGraphImpl<DynamicGraph<EdgeDataT>, Ownership::Container>`,
filtered_graph.hpp lines 156-282): its only state is the transformed
dynamic graph whose edge records embed the filter bit. -/
structure FilteredDynamicGraph where
  graph : List (List DynEdge)
deriving DecidableEq

/-- Constructor loop of filtered_graph.hpp lines 262-276, peeled into a
structural recursion over the per-node blocks: for the block of node `n`
every edge gets filter bit `filter n && filter target`. -/
def mkDynAux (filter : Nat → Bool) : Nat → List (List (Nat × EdgeData)) →
    List (List DynEdge)
  | _, [] => []
  | n, es :: rest =>
    es.map (fun q => ⟨q.1, q.2, filter n && filter q.1⟩) :: mkDynAux filter (n + 1) rest

/-- filtered_graph.hpp lines 262-276: transform the store so each edge
record carries a filter bit, then set every edge's bit to the conjunction
of the node-validity predicate at its source and at its target. -/
def FilteredDynamicGraph.mkFromPred (G : DynamicGraph) (filter : Nat → Bool) :
    FilteredDynamicGraph :=
  ⟨mkDynAux filter 0 G.adj⟩

def FilteredDynamicGraph.GetNumberOfNodes (dfg : FilteredDynamicGraph) : Nat :=
  dfg.graph.length

/-- filtered_graph.hpp line 178: forwards to the underlying store, ignoring
the embedded filter bits. -/
def FilteredDynamicGraph.GetNumberOfEdges (dfg : FilteredDynamicGraph) : Nat :=
  totalLen dfg.graph

/-- Target field of the stored edge record (what `graph.GetTarget` of the
wrapped store returns). -/
def FilteredDynamicGraph.rawTarget (dfg : FilteredDynamicGraph) (e : Nat) : Nat :=
  ((blockAt dfg.graph e).map DynEdge.target).getD SPECIAL_NODEID

/-- Payload field of the stored edge record (what
`graph.GetEdgeData(e).data` of the wrapped store returns). -/
def FilteredDynamicGraph.rawData (dfg : FilteredDynamicGraph) (e : Nat) : EdgeData :=
  ((blockAt dfg.graph e).map DynEdge.data).getD dfltEdge.2

/-- Embedded filter bit of the stored edge record. -/
def FilteredDynamicGraph.maskBit (dfg : FilteredDynamicGraph) (e : Nat) : Bool :=
  ((blockAt dfg.graph e).map DynEdge.filterBit).getD false

/-- filtered_graph.hpp lines 180-184: the debug assertion on the edge's
filter bit, modelled as `Option` like the static accessors. -/
def FilteredDynamicGraph.GetTarget? (dfg : FilteredDynamicGraph) (e : Nat) :
    Option Nat :=
  if dfg.maskBit e then some (dfg.rawTarget e) else none

/-- filtered_graph.hpp lines 186-196: asserts the filter bit, then returns
the `.data` member of the stored record. -/
def FilteredDynamicGraph.GetEdgeData? (dfg : FilteredDynamicGraph) (e : Nat) :
    Option EdgeData :=
  if dfg.maskBit e then some (dfg.rawData e) else none

/-- filtered_graph.hpp lines 198-203: the underlying adjacent range
filtered by the edge record's embedded filter bit. -/
def FilteredDynamicGraph.GetAdjacentEdgeRange (dfg : FilteredDynamicGraph) (n : Nat) :
    List Nat :=
  (blockRange dfg.graph n).filter (fun e => dfg.maskBit e)

/-- filtered_graph.hpp lines 205-216. -/
def FilteredDynamicGraph.FindEdge (dfg : FilteredDynamicGraph) (frm tgt : Nat) : Nat :=
  findEdgeIn (dfg.GetAdjacentEdgeRange frm) dfg.rawTarget tgt

/-- filtered_graph.hpp lines 218-239. -/
def FilteredDynamicGraph.FindSmallestEdge (dfg : FilteredDynamicGraph) (frm tgt : Nat)
    (p : EdgeData → Bool) : Nat :=
  ((dfg.GetAdjacentEdgeRange frm).foldl
    (smallestStep dfg.rawTarget dfg.rawData tgt p)
    (SPECIAL_EDGEID, INVALID_EDGE_WEIGHT)).1

/-- filtered_graph.hpp lines 241-245. -/
def FilteredDynamicGraph.FindEdgeInEitherDirection (dfg : FilteredDynamicGraph)
    (frm tgt : Nat) : Nat :=
  let tmp := dfg.FindEdge frm tgt
  if SPECIAL_NODEID ≠ tmp then tmp else dfg.FindEdge tgt frm

/-- filtered_graph.hpp lines 247-260: same shape as the static overload. -/
def FilteredDynamicGraph.FindEdgeIndicateIfReverse (dfg : FilteredDynamicGraph)
    (frm tgt : Nat) (result : Bool) : Nat × Bool :=
  let ci := dfg.FindEdge frm tgt
  if SPECIAL_NODEID = ci then
    let ci2 := dfg.FindEdge tgt frm
    if SPECIAL_NODEID ≠ ci2 then (ci2, true) else (ci2, result)
  else (ci, result)

/-- filtered_graph.hpp line 278: delegates to the wrapped store's
`Renumber`, which relabels endpoints and carries each edge record (with its
embedded filter bit) to the renumbered node. -/
def FilteredDynamicGraph.Renumber (dfg : FilteredDynamicGraph)
    (old_to_new : Nat → Nat) : FilteredDynamicGraph :=
  ⟨renumberAdj old_to_new (fun d => ⟨old_to_new d.target, d.data, d.filterBit⟩)
    dfg.graph⟩

/-- Well-formedness for the dynamic view, mirroring `StaticGraph.Wf`. -/
def FilteredDynamicGraph.Wf (dfg : FilteredDynamicGraph) : Prop :=
  dfg.GetNumberOfEdges < SPECIAL_EDGEID

instance (dfg : FilteredDynamicGraph) : Decidable dfg.Wf := by
  unfold FilteredDynamicGraph.Wf; infer_instance

/-! Structural lemmas about the per-node block layout. -/

theorem blockFirst_cons_zero (a : List α) (rest : List (List α)) :
    blockFirst (a :: rest) 0 = 0 := by
  simp [blockFirst]

theorem blockFirst_cons_succ (a : List α) (rest : List (List α)) (n : Nat) :
    blockFirst (a :: rest) (n + 1) = a.length + blockFirst rest n := by
  simp [blockFirst]

theorem blockLen_cons_zero (a : List α) (rest : List (List α)) :
    blockLen (a :: rest) 0 = a.length := rfl

theorem blockLen_cons_succ (a : List α) (rest : List (List α)) (n : Nat) :
    blockLen (a :: rest) (n + 1) = blockLen rest n := by
  simp [blockLen]

theorem totalLen_cons (a : List α) (rest : List (List α)) :
    totalLen (a :: rest) = a.length + totalLen rest := by
  simp [totalLen]

theorem blockLen_nil (n : Nat) : blockLen ([] : List (List α)) n = 0 := by
  cases n <;> simp [blockLen]

theorem blockFirst_add_blockLen_le (adj : List (List α)) (n : Nat) :
    blockFirst adj n + blockLen adj n ≤ totalLen adj := by
  induction adj generalizing n with
  | nil => simp [blockFirst, blockLen_nil, totalLen]
  | cons a rest ih =>
    cases n with
    | zero =>
      rw [blockFirst_cons_zero, blockLen_cons_zero, totalLen_cons]
      omega
    | succ n =>
      rw [blockFirst_cons_succ, blockLen_cons_succ, totalLen_cons, Nat.add_assoc]
      exact Nat.add_le_add_left (ih n) _

theorem mem_blockRange_lt_totalLen (adj : List (List α)) (n e : Nat)
    (he : e ∈ blockRange adj n) : e < totalLen adj := by
  rcases List.mem_range'_1.mp he with ⟨-, hlt⟩
  exact Nat.lt_of_lt_of_le hlt (blockFirst_add_blockLen_le adj n)

/-- Position `blockFirst n + j` of the flat edge array holds the `j`-th
record of node `n`'s block. -/
theorem flatten_getElem?_block (adj : List (List α)) (n j : Nat)
    (hj : j < blockLen adj n) :
    adj.flatten[blockFirst adj n + j]? = (adj.getD n [])[j]? := by
  induction adj generalizing n with
  | nil => rw [blockLen_nil] at hj; exact absurd hj (Nat.not_lt_zero j)
  | cons a rest ih =>
    cases n with
    | zero =>
      rw [blockLen_cons_zero] at hj
      rw [blockFirst_cons_zero, Nat.zero_add, List.flatten_cons,
        List.getElem?_append_left hj]
      rfl
    | succ n =>
      rw [blockLen_cons_succ] at hj
      rw [blockFirst_cons_succ, List.flatten_cons, Nat.add_assoc,
        List.getElem?_append_right (Nat.le_add_right _ _),
        Nat.add_sub_cancel_left]
      exact ih n hj

/-- Sum over all nodes of the filtered block-range sizes equals the number
of positions of the whole edge array satisfying the bit predicate. -/
theorem sum_filter_blockRange_aux (p : Nat → Bool) (adj : List (List α)) (s : Nat) :
    ((List.range adj.length).map
      (fun n => ((List.range' (s + blockFirst adj n) (blockLen adj n)).filter p).length)).sum
      = ((List.range' s (totalLen adj)).filter p).length := by
  induction adj generalizing s with
  | nil => simp [totalLen]
  | cons a rest ih =>
    rw [List.length_cons, List.range_succ_eq_map, List.map_cons, List.map_map,
      List.sum_cons]
    have hcomp :
        ((fun n => ((List.range' (s + blockFirst (a :: rest) n)
            (blockLen (a :: rest) n)).filter p).length) ∘ Nat.succ)
          = fun n => ((List.range' ((s + a.length) + blockFirst rest n)
            (blockLen rest n)).filter p).length := by
      funext n
      simp [Function.comp, blockFirst_cons_succ, blockLen_cons_succ, Nat.add_assoc]
    rw [hcomp, ih (s + a.length), blockFirst_cons_zero, blockLen_cons_zero,
      Nat.add_zero, totalLen_cons]
    have hsplit : List.range' s (a.length + totalLen rest)
        = List.range' s a.length ++ List.range' (s + a.length) (totalLen rest) := by
      have h := List.range'_append s a.length (totalLen rest) 1
      simp only [Nat.one_mul] at h
      rw [Nat.add_comm a.length (totalLen rest), ← h]
    rw [hsplit, List.filter_append, List.length_append]

theorem sum_filter_blockRange (p : Nat → Bool) (adj : List (List α)) :
    ((List.range adj.length).map
      (fun n => ((blockRange adj n).filter p).length)).sum
      = ((List.range (totalLen adj)).filter p).length := by
  have h := sum_filter_blockRange_aux p adj 0
  simp only [Nat.zero_add] at h
  simpa [blockRange, List.range_eq_range'] using h

/-! Lemmas about the constructor loop of the dynamic view. -/

theorem mkDynAux_map_length (f : Nat → Bool) (adj : List (List (Nat × EdgeData))) :
    ∀ n, (mkDynAux f n adj).map List.length = adj.map List.length := by
  induction adj with
  | nil => intro n; rfl
  | cons a rest ih =>
    intro n
    simp only [mkDynAux, List.map_cons, List.length_map, ih (n + 1)]

theorem mkDynAux_getD (f : Nat → Bool) (adj : List (List (Nat × EdgeData))) :
    ∀ n s, (mkDynAux f n adj).getD s []
      = (adj.getD s []).map (fun q => DynEdge.mk q.1 q.2 (f (n + s) && f q.1)) := by
  induction adj with
  | nil => intro n s; cases s <;> simp [mkDynAux]
  | cons a rest ih =>
    intro n s
    cases s with
    | zero => simp [mkDynAux]
    | succ s =>
      simp only [mkDynAux, List.getD_cons_succ, ih (n + 1) s, Nat.add_succ,
        Nat.succ_add]

theorem mkDynAux_blockFirst (f : Nat → Bool) (adj : List (List (Nat × EdgeData)))
    (s : Nat) : blockFirst (mkDynAux f 0 adj) s = blockFirst adj s := by
  unfold blockFirst
  rw [mkDynAux_map_length]

theorem mkDynAux_blockLen (f : Nat → Bool) (adj : List (List (Nat × EdgeData)))
    (s : Nat) : blockLen (mkDynAux f 0 adj) s = blockLen adj s := by
  unfold blockLen
  rw [mkDynAux_getD, List.length_map]

theorem mkDynAux_totalLen (f : Nat → Bool) (adj : List (List (Nat × EdgeData))) :
    totalLen (mkDynAux f 0 adj) = totalLen adj := by
  unfold totalLen
  rw [mkDynAux_map_length]

/-! Lemmas about the shared edge-search loop. -/

theorem findEdgeIn_eq_sentinel (l : List Nat) (targetOf : Nat → Nat) (tgt : Nat)
    (h : ∀ e ∈ l, targetOf e ≠ tgt) : findEdgeIn l targetOf tgt = SPECIAL_EDGEID := by
  unfold findEdgeIn
  have hnone : l.find? (fun e => tgt == targetOf e) = none := by
    rw [List.find?_eq_none]
    intro x hx
    simp only [beq_iff_eq]
    exact fun hh => h x hx hh.symm
  rw [hnone]

theorem findEdgeIn_found (l : List Nat) (targetOf : Nat → Nat) (tgt : Nat)
    (h : ∃ e ∈ l, targetOf e = tgt) :
    findEdgeIn l targetOf tgt ∈ l ∧ targetOf (findEdgeIn l targetOf tgt) = tgt := by
  unfold findEdgeIn
  cases hf : l.find? (fun e => tgt == targetOf e) with
  | some e =>
    refine ⟨List.mem_of_find?_eq_some hf, ?_⟩
    have hbeq := List.find?_some hf
    have h2 : tgt = targetOf e := by simpa using hbeq
    exact h2.symm
  | none =>
    exfalso
    rcases h with ⟨e, he, hte⟩
    have := List.find?_eq_none.mp hf e he
    simp [hte] at this

theorem findEdgeIn_ne_sentinel (l : List Nat) (targetOf : Nat → Nat) (tgt : Nat)
    (hlt : ∀ e ∈ l, e < SPECIAL_EDGEID) (h : ∃ e ∈ l, targetOf e = tgt) :
    findEdgeIn l targetOf tgt ≠ SPECIAL_EDGEID := by
  intro hcontra
  have hm := (findEdgeIn_found l targetOf tgt h).1
  exact Nat.lt_irrefl _ (hcontra ▸ hlt _ hm)

/-- Invariant of the `FindSmallestEdge` loop: folding `smallestStep` over a
list either leaves the accumulator untouched, in which case no listed edge
both qualifies and beats the running smallest weight, or returns a listed
qualifying edge whose weight beats the initial accumulator and is minimal
among the qualifying listed edges. -/
theorem smallest_foldl_spec (targetOf : Nat → Nat) (dataOf : Nat → EdgeData)
    (tgt : Nat) (p : EdgeData → Bool) (l : List Nat) :
    ∀ (se : Nat) (sw : Int),
      (l.foldl (smallestStep targetOf dataOf tgt p) (se, sw) = (se, sw) ∧
        ∀ e ∈ l, targetOf e = tgt → p (dataOf e) = true → ¬ (dataOf e).weight < sw)
      ∨ ((l.foldl (smallestStep targetOf dataOf tgt p) (se, sw)).1 ∈ l ∧
          targetOf (l.foldl (smallestStep targetOf dataOf tgt p) (se, sw)).1 = tgt ∧
          p (dataOf (l.foldl (smallestStep targetOf dataOf tgt p) (se, sw)).1) = true ∧
          (dataOf (l.foldl (smallestStep targetOf dataOf tgt p) (se, sw)).1).weight
            = (l.foldl (smallestStep targetOf dataOf tgt p) (se, sw)).2 ∧
          (l.foldl (smallestStep targetOf dataOf tgt p) (se, sw)).2 < sw ∧
          ∀ e ∈ l, targetOf e = tgt → p (dataOf e) = true →
            (l.foldl (smallestStep targetOf dataOf tgt p) (se, sw)).2
              ≤ (dataOf e).weight) := by
  induction l with
  | nil =>
    intro se sw
    left
    simp
  | cons x rest ih =>
    intro se sw
    by_cases hx : targetOf x = tgt ∧ (dataOf x).weight < sw ∧ p (dataOf x) = true
    · have hstep : smallestStep targetOf dataOf tgt p (se, sw) x
          = (x, (dataOf x).weight) := by
        unfold smallestStep
        rw [if_pos hx]
      rw [List.foldl_cons, hstep]
      rcases ih x ((dataOf x).weight) with ⟨heq, hmin⟩ | hfound
      · right
        rw [heq]
        refine ⟨List.mem_cons_self x rest, hx.1, hx.2.2, rfl, hx.2.1, ?_⟩
        intro e he het hep
        rcases List.mem_cons.mp he with rfl | hin
        · exact Int.le_refl _
        · exact Int.not_lt.mp (hmin e hin het hep)
      · right
        rcases hfound with ⟨hm, ht, hp, hw, hlt, hminr⟩
        refine ⟨List.mem_cons_of_mem x hm, ht, hp, hw, Int.lt_trans hlt hx.2.1, ?_⟩
        intro e he het hep
        rcases List.mem_cons.mp he with rfl | hin
        · exact Int.le_of_lt hlt
        · exact hminr e hin het hep
    · have hstep : smallestStep targetOf dataOf tgt p (se, sw) x = (se, sw) := by
        unfold smallestStep
        rw [if_neg hx]
      rw [List.foldl_cons, hstep]
      rcases ih se sw with ⟨heq, hmin⟩ | hfound
      · left
        refine ⟨heq, ?_⟩
        intro e he het hep hlt
        rcases List.mem_cons.mp he with rfl | hin
        · exact hx ⟨het, hlt, hep⟩
        · exact hmin e hin het hep hlt
      · right
        rcases hfound with ⟨hm, ht, hp, hw, hlt, hminr⟩
        refine ⟨List.mem_cons_of_mem x hm, ht, hp, hw, hlt, ?_⟩
        intro e he het hep
        rcases List.mem_cons.mp he with rfl | hin
        · have hnotlt : ¬ (dataOf e).weight < sw := by
            intro hcon
            exact hx ⟨het, hcon, hep⟩
          exact Int.le_trans (Int.le_of_lt hlt) (Int.not_lt.mp hnotlt)
        · exact hminr e hin het hep

theorem findEdgeIn_sentinel_iff (l : List Nat) (targetOf : Nat → Nat) (tgt : Nat)
    (hlt : ∀ e ∈ l, e < SPECIAL_EDGEID) :
    findEdgeIn l targetOf tgt = SPECIAL_EDGEID ↔ ¬ ∃ e ∈ l, targetOf e = tgt := by
  constructor
  · intro hs hex
    exact findEdgeIn_ne_sentinel l targetOf tgt hlt hex hs
  · intro hnone
    refine findEdgeIn_eq_sentinel l targetOf tgt ?_
    intro e he hte
    exact hnone ⟨e, he, hte⟩

/-- Specification of the whole `FindSmallestEdge` loop run from the
sentinel accumulator: the sentinel comes back exactly when no listed edge
has target `tgt`, passes `p`, and has weight strictly below
`INVALID_EDGE_WEIGHT`; otherwise the result is such an edge of minimal
weight among all listed `p`-passing edges with target `tgt`. -/
theorem findSmallest_run_spec (targetOf : Nat → Nat) (dataOf : Nat → EdgeData)
    (tgt : Nat) (p : EdgeData → Bool) (l : List Nat) (r : Nat)
    (hr : r = (l.foldl (smallestStep targetOf dataOf tgt p)
      (SPECIAL_EDGEID, INVALID_EDGE_WEIGHT)).1) :
    ((¬ ∃ e ∈ l, targetOf e = tgt ∧ p (dataOf e) = true ∧
        (dataOf e).weight < INVALID_EDGE_WEIGHT) → r = SPECIAL_EDGEID)
    ∧ ((∃ e ∈ l, targetOf e = tgt ∧ p (dataOf e) = true ∧
        (dataOf e).weight < INVALID_EDGE_WEIGHT) →
      r ∈ l ∧ targetOf r = tgt ∧ p (dataOf r) = true ∧
        (dataOf r).weight < INVALID_EDGE_WEIGHT ∧
        ∀ e ∈ l, targetOf e = tgt → p (dataOf e) = true →
          (dataOf r).weight ≤ (dataOf e).weight) := by
  rcases smallest_foldl_spec targetOf dataOf tgt p l SPECIAL_EDGEID
      INVALID_EDGE_WEIGHT with ⟨heq, hmin⟩ | ⟨hm, ht, hp, hw, hlt, hminr⟩
  · constructor
    · intro _
      rw [hr, heq]
    · intro hex
      exfalso
      rcases hex with ⟨e, he, het, hep, hwlt⟩
      exact hmin e he het hep hwlt
  · constructor
    · intro hno
      exfalso
      refine hno ⟨_, hm, ht, hp, ?_⟩
      rw [hw]
      exact hlt
    · intro _
      subst hr
      refine ⟨hm, ht, hp, ?_, ?_⟩
      · rw [hw]
        exact hlt
      · intro e he het hep
        rw [hw]
        exact hminr e he het hep

theorem special_node_eq_edge : SPECIAL_NODEID = SPECIAL_EDGEID := rfl

/-- Every edge id of a filtered adjacent range of a well-formed static view
is an actual array position, hence below the sentinel. -/
theorem static_range_lt (fg : FilteredStaticGraph) (hwf : fg.graph.Wf) (n : Nat) :
    ∀ e ∈ fg.GetAdjacentEdgeRange n, e < SPECIAL_EDGEID := by
  intro e he
  have hmem := (List.mem_filter.mp he).1
  exact Nat.lt_trans (mem_blockRange_lt_totalLen _ _ _ hmem) hwf

theorem dynamic_range_lt (dfg : FilteredDynamicGraph) (hwf : dfg.Wf) (n : Nat) :
    ∀ e ∈ dfg.GetAdjacentEdgeRange n, e < SPECIAL_EDGEID := by
  intro e he
  have hmem := (List.mem_filter.mp he).1
  exact Nat.lt_trans (mem_blockRange_lt_totalLen _ _ _ hmem) hwf

/-! Concrete fixtures used by the witnesses and counterexamples. -/

/-- Two nodes, a single edge from node 0 to node 1 of weight 1. -/
def exampleStaticStore : StaticGraph := ⟨[[(1, ⟨1, false⟩)], []]⟩

/-- View of `exampleStaticStore` with every edge unmasked. -/
def exampleForwardView : FilteredStaticGraph :=
  FilteredStaticGraph.mkFromPred exampleStaticStore (fun _ => true)

/-- Two nodes; edge 0 goes 0 to 1, edge 1 goes 0 to 0. -/
def exampleTwoEdgeStore : StaticGraph := ⟨[[(1, ⟨1, false⟩), (0, ⟨2, false⟩)], []]⟩

/-- View of `exampleTwoEdgeStore` keeping only edge 0. -/
def exampleMaskedView : FilteredStaticGraph :=
  FilteredStaticGraph.mkFromPred exampleTwoEdgeStore (fun e => e == 0)

/-- View of a store whose single edge 0 to 1 carries the sentinel weight. -/
def exampleInvalidWeightView : FilteredStaticGraph :=
  FilteredStaticGraph.mkFromPred ⟨[[(1, ⟨INVALID_EDGE_WEIGHT, false⟩)], []]⟩
    (fun _ => true)

/-- Two nodes, a single dynamic edge from node 0 to node 1 of weight 1. -/
def exampleDynStore : DynamicGraph := ⟨[[(1, ⟨1, false⟩)], []]⟩

/-- Dynamic view of `exampleDynStore` with every node valid. -/
def exampleDynAllView : FilteredDynamicGraph :=
  FilteredDynamicGraph.mkFromPred exampleDynStore (fun _ => true)

/-- Dynamic view of `exampleDynStore` where only node 0 is valid, so its
edge (whose target is node 1) is masked out. -/
def exampleDynMaskedView : FilteredDynamicGraph :=
  FilteredDynamicGraph.mkFromPred exampleDynStore (fun n => n == 0)

/-! The claims. -/

/-- C7: for every node pair, `FindEdge(from, to)` returns the sentinel
`SPECIAL_EDGEID` when the filtered adjacency of `from` holds no edge with
target `to`, and otherwise returns an edge of that filtered adjacency whose
target is `to`; first conjunct is the static mode, second the dynamic
mode. -/
theorem claim_C7_findEdge_sentinel :
    (∀ (fg : FilteredStaticGraph) (frm tgt : Nat),
      ((¬ ∃ e ∈ fg.GetAdjacentEdgeRange frm, fg.graph.GetTarget e = tgt) →
        fg.FindEdge frm tgt = SPECIAL_EDGEID) ∧
      ((∃ e ∈ fg.GetAdjacentEdgeRange frm, fg.graph.GetTarget e = tgt) →
        fg.FindEdge frm tgt ∈ fg.GetAdjacentEdgeRange frm ∧
          fg.graph.GetTarget (fg.FindEdge frm tgt) = tgt)) ∧
    (∀ (dfg : FilteredDynamicGraph) (frm tgt : Nat),
      ((¬ ∃ e ∈ dfg.GetAdjacentEdgeRange frm, dfg.rawTarget e = tgt) →
        dfg.FindEdge frm tgt = SPECIAL_EDGEID) ∧
      ((∃ e ∈ dfg.GetAdjacentEdgeRange frm, dfg.rawTarget e = tgt) →
        dfg.FindEdge frm tgt ∈ dfg.GetAdjacentEdgeRange frm ∧
          dfg.rawTarget (dfg.FindEdge frm tgt) = tgt)) := by
  constructor
  · intro fg frm tgt
    constructor
    · intro hno
      refine findEdgeIn_eq_sentinel _ _ _ ?_
      intro e he het
      exact hno ⟨e, he, het⟩
    · intro hex
      exact findEdgeIn_found _ _ _ hex
  · intro dfg frm tgt
    constructor
    · intro hno
      refine findEdgeIn_eq_sentinel _ _ _ ?_
      intro e he het
      exact hno ⟨e, he, het⟩
    · intro hex
      exact findEdgeIn_found _ _ _ hex

/-- Witness for C7 on the concrete fixtures: the single unmasked edge
0 to 1 is found in both modes. -/
theorem claim_C7_witness :
    (exampleForwardView.FindEdge 0 1 ∈ exampleForwardView.GetAdjacentEdgeRange 0 ∧
      exampleForwardView.graph.GetTarget (exampleForwardView.FindEdge 0 1) = 1) ∧
    (exampleDynAllView.FindEdge 0 1 ∈ exampleDynAllView.GetAdjacentEdgeRange 0 ∧
      exampleDynAllView.rawTarget (exampleDynAllView.FindEdge 0 1) = 1) := by
  constructor
  · exact (claim_C7_findEdge_sentinel.1 exampleForwardView 0 1).2
      ⟨0, by decide, by decide⟩
  · exact (claim_C7_findEdge_sentinel.2 exampleDynAllView 0 1).2
      ⟨0, by decide, by decide⟩

/-- C8: the accessors of either masked view fail their debug assertion
(modelled by returning `none`) exactly on edges whose filter bit is unset,
and on unmasked edges return the underlying store's target and payload. -/
theorem claim_C8_masked_accessor_contract :
    (∀ (fg : FilteredStaticGraph) (e : Nat),
      (fg.maskBit e = false → fg.GetTarget? e = none ∧ fg.GetEdgeData? e = none) ∧
      (fg.maskBit e = true →
        fg.GetTarget? e = some (fg.graph.GetTarget e) ∧
          fg.GetEdgeData? e = some (fg.graph.GetEdgeData e))) ∧
    (∀ (dfg : FilteredDynamicGraph) (e : Nat),
      (dfg.maskBit e = false → dfg.GetTarget? e = none ∧ dfg.GetEdgeData? e = none) ∧
      (dfg.maskBit e = true →
        dfg.GetTarget? e = some (dfg.rawTarget e) ∧
          dfg.GetEdgeData? e = some (dfg.rawData e))) := by
  constructor
  · intro fg e
    constructor
    · intro h
      constructor
      · simp [FilteredStaticGraph.GetTarget?, h]
      · simp [FilteredStaticGraph.GetEdgeData?, h]
    · intro h
      constructor
      · simp [FilteredStaticGraph.GetTarget?, h]
      · simp [FilteredStaticGraph.GetEdgeData?, h]
  · intro dfg e
    constructor
    · intro h
      constructor
      · simp [FilteredDynamicGraph.GetTarget?, h]
      · simp [FilteredDynamicGraph.GetEdgeData?, h]
    · intro h
      constructor
      · simp [FilteredDynamicGraph.GetTarget?, h]
      · simp [FilteredDynamicGraph.GetEdgeData?, h]

/-- Witness for C8: edge 1 of the masked static view is masked, so both
accessors fail their assertion on it; edge 0 is unmasked, so they return
the store's values; same on the dynamic fixture whose only edge is masked
because its target node is invalid. -/
theorem claim_C8_witness :
    (exampleMaskedView.GetTarget? 1 = none ∧
      exampleMaskedView.GetEdgeData? 1 = none) ∧
    (exampleMaskedView.GetTarget? 0 = some (exampleMaskedView.graph.GetTarget 0) ∧
      exampleMaskedView.GetEdgeData? 0
        = some (exampleMaskedView.graph.GetEdgeData 0)) ∧
    (exampleDynMaskedView.GetTarget? 0 = none ∧
      exampleDynMaskedView.GetEdgeData? 0 = none) := by
  refine ⟨?_, ?_, ?_⟩
  · exact (claim_C8_masked_accessor_contract.1 exampleMaskedView 1).1 (by decide)
  · exact (claim_C8_masked_accessor_contract.1 exampleMaskedView 0).2 (by decide)
  · exact (claim_C8_masked_accessor_contract.2 exampleDynMaskedView 0).1 (by decide)

/-- Counterexample for C6 as frozen: the view holds an unmasked edge 0 to 1
that satisfies the predicate, yet `FindSmallestEdge(0, 1, P)` answers the
no-edge sentinel (which is not an edge of the adjacency at all), because
the edge's weight equals `INVALID_EDGE_WEIGHT` and the loop's strict
comparison against the initial sentinel weight rejects it. -/
theorem claim_C6_counterexample :
    exampleInvalidWeightView.FindSmallestEdge 0 1 (fun _ => true) = SPECIAL_EDGEID ∧
    0 ∈ exampleInvalidWeightView.GetAdjacentEdgeRange 0 ∧
    exampleInvalidWeightView.graph.GetTarget 0 = 1 ∧
    (fun (_ : EdgeData) => true) (exampleInvalidWeightView.graph.GetEdgeData 0)
      = true ∧
    SPECIAL_EDGEID ∉ exampleInvalidWeightView.GetAdjacentEdgeRange 0 := by
  decide

/-- C6 (amended: the returned minimum is taken among the qualifying edges
of weight strictly below `INVALID_EDGE_WEIGHT`; a qualifying edge whose
weight equals the sentinel weight is never selected): `FindSmallestEdge`
returns the sentinel when no unmasked edge from `from` to `to` satisfies
`P` with weight below `INVALID_EDGE_WEIGHT`, and otherwise returns such an
edge whose weight is minimal among all `P`-satisfying unmasked edges from
`from` to `to`; first conjunct static mode, second dynamic mode. -/
theorem claim_C6_findSmallestEdge_minimal :
    (∀ (fg : FilteredStaticGraph) (frm tgt : Nat) (p : EdgeData → Bool),
      ((¬ ∃ e ∈ fg.GetAdjacentEdgeRange frm, fg.graph.GetTarget e = tgt ∧
          p (fg.graph.GetEdgeData e) = true ∧
          (fg.graph.GetEdgeData e).weight < INVALID_EDGE_WEIGHT) →
        fg.FindSmallestEdge frm tgt p = SPECIAL_EDGEID) ∧
      ((∃ e ∈ fg.GetAdjacentEdgeRange frm, fg.graph.GetTarget e = tgt ∧
          p (fg.graph.GetEdgeData e) = true ∧
          (fg.graph.GetEdgeData e).weight < INVALID_EDGE_WEIGHT) →
        fg.FindSmallestEdge frm tgt p ∈ fg.GetAdjacentEdgeRange frm ∧
          fg.graph.GetTarget (fg.FindSmallestEdge frm tgt p) = tgt ∧
          p (fg.graph.GetEdgeData (fg.FindSmallestEdge frm tgt p)) = true ∧
          (fg.graph.GetEdgeData (fg.FindSmallestEdge frm tgt p)).weight
            < INVALID_EDGE_WEIGHT ∧
          ∀ e ∈ fg.GetAdjacentEdgeRange frm, fg.graph.GetTarget e = tgt →
            p (fg.graph.GetEdgeData e) = true →
            (fg.graph.GetEdgeData (fg.FindSmallestEdge frm tgt p)).weight
              ≤ (fg.graph.GetEdgeData e).weight)) ∧
    (∀ (dfg : FilteredDynamicGraph) (frm tgt : Nat) (p : EdgeData → Bool),
      ((¬ ∃ e ∈ dfg.GetAdjacentEdgeRange frm, dfg.rawTarget e = tgt ∧
          p (dfg.rawData e) = true ∧
          (dfg.rawData e).weight < INVALID_EDGE_WEIGHT) →
        dfg.FindSmallestEdge frm tgt p = SPECIAL_EDGEID) ∧
      ((∃ e ∈ dfg.GetAdjacentEdgeRange frm, dfg.rawTarget e = tgt ∧
          p (dfg.rawData e) = true ∧
          (dfg.rawData e).weight < INVALID_EDGE_WEIGHT) →
        dfg.FindSmallestEdge frm tgt p ∈ dfg.GetAdjacentEdgeRange frm ∧
          dfg.rawTarget (dfg.FindSmallestEdge frm tgt p) = tgt ∧
          p (dfg.rawData (dfg.FindSmallestEdge frm tgt p)) = true ∧
          (dfg.rawData (dfg.FindSmallestEdge frm tgt p)).weight
            < INVALID_EDGE_WEIGHT ∧
          ∀ e ∈ dfg.GetAdjacentEdgeRange frm, dfg.rawTarget e = tgt →
            p (dfg.rawData e) = true →
            (dfg.rawData (dfg.FindSmallestEdge frm tgt p)).weight
              ≤ (dfg.rawData e).weight)) := by
  constructor
  · intro fg frm tgt p
    exact findSmallest_run_spec fg.graph.GetTarget fg.graph.GetEdgeData tgt p
      (fg.GetAdjacentEdgeRange frm) (fg.FindSmallestEdge frm tgt p) rfl
  · intro dfg frm tgt p
    exact findSmallest_run_spec dfg.rawTarget dfg.rawData tgt p
      (dfg.GetAdjacentEdgeRange frm) (dfg.FindSmallestEdge frm tgt p) rfl

/-- Witness for C6 on the concrete fixtures: the qualifying edge 0 to 1 of
weight 1 is returned in both modes. -/
theorem claim_C6_witness :
    (exampleForwardView.FindSmallestEdge 0 1 (fun _ => true)
        ∈ exampleForwardView.GetAdjacentEdgeRange 0 ∧
      exampleForwardView.graph.GetTarget
        (exampleForwardView.FindSmallestEdge 0 1 (fun _ => true)) = 1) ∧
    (exampleDynAllView.FindSmallestEdge 0 1 (fun _ => true)
        ∈ exampleDynAllView.GetAdjacentEdgeRange 0 ∧
      exampleDynAllView.rawTarget
        (exampleDynAllView.FindSmallestEdge 0 1 (fun _ => true)) = 1) := by
  constructor
  · have h := (claim_C6_findSmallestEdge_minimal.1 exampleForwardView 0 1
      (fun _ => true)).2 ⟨0, by decide, by decide, by decide, by decide⟩
    exact ⟨h.1, h.2.1⟩
  · have h := (claim_C6_findSmallestEdge_minimal.2 exampleDynAllView 0 1
      (fun _ => true)).2 ⟨0, by decide, by decide, by decide, by decide⟩
    exact ⟨h.1, h.2.1⟩

/-- C1: a static view built from a predicate and one built by first
materializing that predicate into the boolean vector
`[f 0, ..., f (edgeCount - 1)]` and handing it to the vector constructor
report the same out-degree and the same filtered adjacent range for every
node. -/
theorem claim_C1_predicate_vector_agree (G : StaticGraph) (f : Nat → Bool)
    (fg : FilteredStaticGraph)
    (h : FilteredStaticGraph.mkFromVector G ((List.range G.GetNumberOfEdges).map f)
      = some fg) :
    ∀ n, fg.GetOutDegree n = (FilteredStaticGraph.mkFromPred G f).GetOutDegree n ∧
      fg.GetAdjacentEdgeRange n
        = (FilteredStaticGraph.mkFromPred G f).GetAdjacentEdgeRange n := by
  have hlen : ((List.range G.GetNumberOfEdges).map f).length = G.GetNumberOfEdges := by
    simp
  unfold FilteredStaticGraph.mkFromVector at h
  rw [if_pos hlen] at h
  have hfg : fg = FilteredStaticGraph.mkFromPred G f := (Option.some.inj h).symm
  subst hfg
  intro n
  exact ⟨rfl, rfl⟩

/-- Witness for C1 on the two-edge fixture, whose materialized vector for
the predicate keeping only edge 0 is `[true, false]`. -/
theorem claim_C1_witness :
    (⟨exampleTwoEdgeStore, [true, false]⟩ : FilteredStaticGraph).GetOutDegree 0
      = (FilteredStaticGraph.mkFromPred exampleTwoEdgeStore
          (fun e => e == 0)).GetOutDegree 0 ∧
    (⟨exampleTwoEdgeStore, [true, false]⟩ :
        FilteredStaticGraph).GetAdjacentEdgeRange 0
      = (FilteredStaticGraph.mkFromPred exampleTwoEdgeStore
          (fun e => e == 0)).GetAdjacentEdgeRange 0 :=
  claim_C1_predicate_vector_agree exampleTwoEdgeStore (fun e => e == 0)
    ⟨exampleTwoEdgeStore, [true, false]⟩ (by decide) 0

/-- Core of C2, stated on the constructor loop: the edge stored at position
`j` of node `s`'s block is kept by the filtered adjacent range of `s` if
and only if the node-validity predicate accepts both `s` and the edge's
target. -/
theorem dynVisible_iff (adjG : List (List (Nat × EdgeData))) (p : Nat → Bool)
    (s j : Nat) (hj : j < blockLen adjG s) :
    (blockFirst adjG s + j ∈ (blockRange (mkDynAux p 0 adjG) s).filter
        (fun e => ((blockAt (mkDynAux p 0 adjG) e).map DynEdge.filterBit).getD false))
      ↔ (p s && p ((adjG.getD s []).getD j dfltEdge).1) = true := by
  have hbf := mkDynAux_blockFirst p adjG s
  have hbl := mkDynAux_blockLen p adjG s
  have hj2 : j < blockLen (mkDynAux p 0 adjG) s := by rw [hbl]; exact hj
  have hmem : blockFirst adjG s + j ∈ blockRange (mkDynAux p 0 adjG) s := by
    unfold blockRange
    rw [hbf, hbl]
    exact List.mem_range'_1.mpr ⟨Nat.le_add_right _ _, Nat.add_lt_add_left hj _⟩
  have hjlen : j < (adjG.getD s []).length := hj
  have hbit : ((blockAt (mkDynAux p 0 adjG) (blockFirst adjG s + j)).map
      DynEdge.filterBit).getD false
      = (p s && p ((adjG.getD s []).getD j dfltEdge).1) := by
    unfold blockAt
    have hidx : blockFirst adjG s + j = blockFirst (mkDynAux p 0 adjG) s + j := by
      rw [hbf]
    have hgetd : (adjG.getD s []).getD j dfltEdge = (adjG.getD s [])[j] := by
      rw [List.getD_eq_getElem?_getD, List.getElem?_eq_getElem hjlen]
      rfl
    rw [hidx, flatten_getElem?_block _ s j hj2, mkDynAux_getD, List.getElem?_map,
      List.getElem?_eq_getElem hjlen, hgetd]
    simp
  rw [List.mem_filter]
  constructor
  · intro h
    rw [← hbit]
    exact h.2
  · intro h
    refine ⟨hmem, ?_⟩
    rw [hbit]
    exact h

/-- C2: in the dynamic view built from a node-validity predicate `p`, the
edge stored at position `j` of source node `s`'s block (global id
`blockFirst s + j`, target `t`) is returned by `GetAdjacentEdgeRange s` if
and only if both `p s` and `p t` hold. -/
theorem claim_C2_dynamic_visibility (G : DynamicGraph) (p : Nat → Bool)
    (s j : Nat) (hj : j < blockLen G.adj s) :
    (blockFirst G.adj s + j
        ∈ (FilteredDynamicGraph.mkFromPred G p).GetAdjacentEdgeRange s)
      ↔ (p s && p ((G.adj.getD s []).getD j dfltEdge).1) = true :=
  dynVisible_iff G.adj p s j hj

/-- Witness for C2: on the dynamic fixture whose only edge goes from the
valid node 0 to the invalid node 1, the visibility of that edge is
equivalent to the (false) conjunction of the endpoint validities. -/
theorem claim_C2_witness :
    (blockFirst exampleDynStore.adj 0 + 0
        ∈ exampleDynMaskedView.GetAdjacentEdgeRange 0)
      ↔ (((0 : Nat) == 0)
          && (((exampleDynStore.adj.getD 0 []).getD 0 dfltEdge).1 == 0)) = true :=
  claim_C2_dynamic_visibility exampleDynStore (fun n => n == 0) 0 0 (by decide)

/-- C3: both static-mode constructors establish
`edge_filter.size() == graph.GetNumberOfEdges()`: the vector constructor
whenever its size assertion passes (modelled by `some`), the predicate
constructor unconditionally; nothing else ever touches the filter vector's
length. -/
theorem claim_C3_mask_size_invariant :
    (∀ (G : StaticGraph) (v : List Bool) (fg : FilteredStaticGraph),
      FilteredStaticGraph.mkFromVector G v = some fg →
        fg.edge_filter.length = fg.graph.GetNumberOfEdges) ∧
    (∀ (G : StaticGraph) (f : Nat → Bool),
      (FilteredStaticGraph.mkFromPred G f).edge_filter.length
        = (FilteredStaticGraph.mkFromPred G f).graph.GetNumberOfEdges) := by
  constructor
  · intro G v fg h
    unfold FilteredStaticGraph.mkFromVector at h
    by_cases hlen : v.length = G.GetNumberOfEdges
    · rw [if_pos hlen] at h
      have hfg : fg = (⟨G, v⟩ : FilteredStaticGraph) := (Option.some.inj h).symm
      subst hfg
      exact hlen
    · rw [if_neg hlen] at h
      exact absurd h (by simp)
  · intro G f
    simp [FilteredStaticGraph.mkFromPred]

/-- Witness for C3 on the one-edge fixture, for both constructors. -/
theorem claim_C3_witness :
    (⟨exampleStaticStore, [true]⟩ : FilteredStaticGraph).edge_filter.length
      = (⟨exampleStaticStore, [true]⟩ : FilteredStaticGraph).graph.GetNumberOfEdges ∧
    (FilteredStaticGraph.mkFromPred exampleStaticStore
        (fun _ => false)).edge_filter.length
      = (FilteredStaticGraph.mkFromPred exampleStaticStore
          (fun _ => false)).graph.GetNumberOfEdges :=
  ⟨claim_C3_mask_size_invariant.1 exampleStaticStore [true]
      ⟨exampleStaticStore, [true]⟩ (by decide),
    claim_C3_mask_size_invariant.2 exampleStaticStore (fun _ => false)⟩

/-- Shape of the two branches of `FindEdgeInEitherDirection` when exactly
one direction yields a hit. -/
theorem eitherDir_core (x y : Nat) (hx : x ≠ SPECIAL_EDGEID)
    (hy : y = SPECIAL_EDGEID) :
    (if SPECIAL_NODEID ≠ x then x else y) = (if SPECIAL_NODEID ≠ y then y else x) := by
  subst hy
  have h1 : SPECIAL_NODEID ≠ x := by
    rw [special_node_eq_edge]
    exact fun hc => hx hc.symm
  have h2 : ¬ SPECIAL_NODEID ≠ SPECIAL_EDGEID := by
    rw [special_node_eq_edge]
    simp
  rw [if_pos h1, if_neg h2]

/-- C4: whenever the store holds an unmasked edge between `a` and `b` in
exactly one direction, `FindEdgeInEitherDirection(a, b)` and
`FindEdgeInEitherDirection(b, a)` return the same edge id; first conjunct
static mode, second dynamic mode. -/
theorem claim_C4_either_direction_symmetric :
    (∀ (fg : FilteredStaticGraph) (a b : Nat), fg.graph.Wf →
      Xor' (∃ e ∈ fg.GetAdjacentEdgeRange a, fg.graph.GetTarget e = b)
        (∃ e ∈ fg.GetAdjacentEdgeRange b, fg.graph.GetTarget e = a) →
      fg.FindEdgeInEitherDirection a b = fg.FindEdgeInEitherDirection b a) ∧
    (∀ (dfg : FilteredDynamicGraph) (a b : Nat), dfg.Wf →
      Xor' (∃ e ∈ dfg.GetAdjacentEdgeRange a, dfg.rawTarget e = b)
        (∃ e ∈ dfg.GetAdjacentEdgeRange b, dfg.rawTarget e = a) →
      dfg.FindEdgeInEitherDirection a b = dfg.FindEdgeInEitherDirection b a) := by
  constructor
  · intro fg a b hwf hxor
    rcases hxor with ⟨hab, hnba⟩ | ⟨hba, hnab⟩
    · have h1 : fg.FindEdge a b ≠ SPECIAL_EDGEID :=
        findEdgeIn_ne_sentinel _ _ _ (static_range_lt fg hwf a) hab
      have h2 : fg.FindEdge b a = SPECIAL_EDGEID := by
        refine findEdgeIn_eq_sentinel _ _ _ ?_
        intro e he het
        exact hnba ⟨e, he, het⟩
      exact eitherDir_core _ _ h1 h2
    · have h1 : fg.FindEdge b a ≠ SPECIAL_EDGEID :=
        findEdgeIn_ne_sentinel _ _ _ (static_range_lt fg hwf b) hba
      have h2 : fg.FindEdge a b = SPECIAL_EDGEID := by
        refine findEdgeIn_eq_sentinel _ _ _ ?_
        intro e he het
        exact hnab ⟨e, he, het⟩
      exact (eitherDir_core _ _ h1 h2).symm
  · intro dfg a b hwf hxor
    rcases hxor with ⟨hab, hnba⟩ | ⟨hba, hnab⟩
    · have h1 : dfg.FindEdge a b ≠ SPECIAL_EDGEID :=
        findEdgeIn_ne_sentinel _ _ _ (dynamic_range_lt dfg hwf a) hab
      have h2 : dfg.FindEdge b a = SPECIAL_EDGEID := by
        refine findEdgeIn_eq_sentinel _ _ _ ?_
        intro e he het
        exact hnba ⟨e, he, het⟩
      exact eitherDir_core _ _ h1 h2
    · have h1 : dfg.FindEdge b a ≠ SPECIAL_EDGEID :=
        findEdgeIn_ne_sentinel _ _ _ (dynamic_range_lt dfg hwf b) hba
      have h2 : dfg.FindEdge a b = SPECIAL_EDGEID := by
        refine findEdgeIn_eq_sentinel _ _ _ ?_
        intro e he het
        exact hnab ⟨e, he, het⟩
      exact (eitherDir_core _ _ h1 h2).symm

/-- Witness for C4: the fixtures hold the edge 0 to 1 only in that
direction, and both orders of query agree, in both modes. -/
theorem claim_C4_witness :
    exampleForwardView.FindEdgeInEitherDirection 0 1
      = exampleForwardView.FindEdgeInEitherDirection 1 0 ∧
    exampleDynAllView.FindEdgeInEitherDirection 0 1
      = exampleDynAllView.FindEdgeInEitherDirection 1 0 := by
  constructor
  · exact claim_C4_either_direction_symmetric.1 exampleForwardView 0 1 (by decide)
      (Or.inl ⟨⟨0, by decide, by decide⟩, by decide⟩)
  · exact claim_C4_either_direction_symmetric.2 exampleDynAllView 0 1 (by decide)
      (Or.inl ⟨⟨0, by decide, by decide⟩, by decide⟩)

/-- Closed form of the returned flag of the static
`FindEdgeIndicateIfReverse` when the out-parameter starts `false`. -/
theorem findEdgeIndicate_snd_false (fg : FilteredStaticGraph) (frm tgt : Nat) :
    (fg.FindEdgeIndicateIfReverse frm tgt false).2 = true ↔
      (fg.FindEdge frm tgt = SPECIAL_EDGEID ∧
        fg.FindEdge tgt frm ≠ SPECIAL_EDGEID) := by
  unfold FilteredStaticGraph.FindEdgeIndicateIfReverse
  rw [special_node_eq_edge]
  by_cases h1 : SPECIAL_EDGEID = fg.FindEdge frm tgt
  · rw [if_pos h1]
    by_cases h2 : SPECIAL_EDGEID ≠ fg.FindEdge tgt frm
    · rw [if_pos h2]
      simp only [true_iff]
      exact ⟨h1.symm, fun hc => h2 hc.symm⟩
    · rw [if_neg h2]
      simp only [Bool.false_eq_true, false_iff, not_and, Ne, not_not]
      intro _
      exact (not_not.mp h2).symm
  · rw [if_neg h1]
    simp only [Bool.false_eq_true, false_iff, not_and]
    intro hc
    exact absurd hc.symm h1

/-- Closed form of the returned flag of the dynamic
`FindEdgeIndicateIfReverse` when the out-parameter starts `false`. -/
theorem dyn_findEdgeIndicate_snd_false (dfg : FilteredDynamicGraph) (frm tgt : Nat) :
    (dfg.FindEdgeIndicateIfReverse frm tgt false).2 = true ↔
      (dfg.FindEdge frm tgt = SPECIAL_EDGEID ∧
        dfg.FindEdge tgt frm ≠ SPECIAL_EDGEID) := by
  unfold FilteredDynamicGraph.FindEdgeIndicateIfReverse
  rw [special_node_eq_edge]
  by_cases h1 : SPECIAL_EDGEID = dfg.FindEdge frm tgt
  · rw [if_pos h1]
    by_cases h2 : SPECIAL_EDGEID ≠ dfg.FindEdge tgt frm
    · rw [if_pos h2]
      simp only [true_iff]
      exact ⟨h1.symm, fun hc => h2 hc.symm⟩
    · rw [if_neg h2]
      simp only [Bool.false_eq_true, false_iff, not_and, Ne, not_not]
      intro _
      exact (not_not.mp h2).symm
  · rw [if_neg h1]
    simp only [Bool.false_eq_true, false_iff, not_and]
    intro hc
    exact absurd hc.symm h1

/-- The static `FindEdgeIndicateIfReverse` never clears an initially-true
flag: the source only ever assigns `true` to the out-parameter. -/
theorem findEdgeIndicate_snd_true (fg : FilteredStaticGraph) (frm tgt : Nat) :
    (fg.FindEdgeIndicateIfReverse frm tgt true).2 = true := by
  unfold FilteredStaticGraph.FindEdgeIndicateIfReverse
  by_cases h1 : SPECIAL_NODEID = fg.FindEdge frm tgt
  · rw [if_pos h1]
    by_cases h2 : SPECIAL_NODEID ≠ fg.FindEdge tgt frm
    · rw [if_pos h2]
    · rw [if_neg h2]
  · rw [if_neg h1]

/-- The dynamic `FindEdgeIndicateIfReverse` never clears an initially-true
flag. -/
theorem dyn_findEdgeIndicate_snd_true (dfg : FilteredDynamicGraph) (frm tgt : Nat) :
    (dfg.FindEdgeIndicateIfReverse frm tgt true).2 = true := by
  unfold FilteredDynamicGraph.FindEdgeIndicateIfReverse
  by_cases h1 : SPECIAL_NODEID = dfg.FindEdge frm tgt
  · rw [if_pos h1]
    by_cases h2 : SPECIAL_NODEID ≠ dfg.FindEdge tgt frm
    · rw [if_pos h2]
    · rw [if_neg h2]
  · rw [if_neg h1]

/-- Counterexample for C5 as frozen: with the out-flag initially `true` and
an unmasked forward edge 0 to 1 present, the flag is still `true` after the
call although the match did not require reversing, so the claimed
equivalence fails for that initial flag value. -/
theorem claim_C5_counterexample :
    ¬ (((exampleForwardView.FindEdgeIndicateIfReverse 0 1 true).2 = true) ↔
      ((¬ ∃ e ∈ exampleForwardView.GetAdjacentEdgeRange 0,
          exampleForwardView.graph.GetTarget e = 1) ∧
        ∃ e ∈ exampleForwardView.GetAdjacentEdgeRange 1,
          exampleForwardView.graph.GetTarget e = 0)) := by
  decide

/-- C5 (amended: the function never assigns `false` to the out-flag, so the
stated equivalence holds exactly when the flag is passed in `false`; an
initially-true flag stays true regardless): with the flag initially
`false`, after the call the flag is true if and only if no unmasked edge
`from` to `to` exists while an unmasked edge `to` to `from` does; and an
initially-true flag is returned true.  First conjunct static mode, second
dynamic mode. -/
theorem claim_C5_reverse_flag :
    (∀ (fg : FilteredStaticGraph) (frm tgt : Nat), fg.graph.Wf →
      (((fg.FindEdgeIndicateIfReverse frm tgt false).2 = true) ↔
        ((¬ ∃ e ∈ fg.GetAdjacentEdgeRange frm, fg.graph.GetTarget e = tgt) ∧
          ∃ e ∈ fg.GetAdjacentEdgeRange tgt, fg.graph.GetTarget e = frm)) ∧
      (fg.FindEdgeIndicateIfReverse frm tgt true).2 = true) ∧
    (∀ (dfg : FilteredDynamicGraph) (frm tgt : Nat), dfg.Wf →
      (((dfg.FindEdgeIndicateIfReverse frm tgt false).2 = true) ↔
        ((¬ ∃ e ∈ dfg.GetAdjacentEdgeRange frm, dfg.rawTarget e = tgt) ∧
          ∃ e ∈ dfg.GetAdjacentEdgeRange tgt, dfg.rawTarget e = frm)) ∧
      (dfg.FindEdgeIndicateIfReverse frm tgt true).2 = true) := by
  constructor
  · intro fg frm tgt hwf
    constructor
    · rw [findEdgeIndicate_snd_false]
      constructor
      · intro h
        rcases h with ⟨hs, hns⟩
        constructor
        · exact (findEdgeIn_sentinel_iff _ _ _ (static_range_lt fg hwf frm)).mp hs
        · by_contra hno
          exact hns ((findEdgeIn_sentinel_iff _ _ _
            (static_range_lt fg hwf tgt)).mpr hno)
      · intro h
        rcases h with ⟨hno, hex⟩
        constructor
        · exact (findEdgeIn_sentinel_iff _ _ _ (static_range_lt fg hwf frm)).mpr hno
        · exact findEdgeIn_ne_sentinel _ _ _ (static_range_lt fg hwf tgt) hex
    · exact findEdgeIndicate_snd_true fg frm tgt
  · intro dfg frm tgt hwf
    constructor
    · rw [dyn_findEdgeIndicate_snd_false]
      constructor
      · intro h
        rcases h with ⟨hs, hns⟩
        constructor
        · exact (findEdgeIn_sentinel_iff _ _ _ (dynamic_range_lt dfg hwf frm)).mp hs
        · by_contra hno
          exact hns ((findEdgeIn_sentinel_iff _ _ _
            (dynamic_range_lt dfg hwf tgt)).mpr hno)
      · intro h
        rcases h with ⟨hno, hex⟩
        constructor
        · exact (findEdgeIn_sentinel_iff _ _ _ (dynamic_range_lt dfg hwf frm)).mpr hno
        · exact findEdgeIn_ne_sentinel _ _ _ (dynamic_range_lt dfg hwf tgt) hex
    · exact dyn_findEdgeIndicate_snd_true dfg frm tgt

/-- Witness for C5: querying the fixture backwards (1 to 0) with the flag
initially `false` sets the flag, and the flag passed in `true` with a
forward match comes back `true`. -/
theorem claim_C5_witness :
    (exampleForwardView.FindEdgeIndicateIfReverse 1 0 false).2 = true ∧
    (exampleForwardView.FindEdgeIndicateIfReverse 0 1 true).2 = true := by
  constructor
  · exact ((claim_C5_reverse_flag.1 exampleForwardView 1 0 (by decide)).1).mpr
      ⟨by decide, ⟨0, by decide, by decide⟩⟩
  · exact (claim_C5_reverse_flag.1 exampleForwardView 0 1 (by decide)).2

/-- C9: the static-mode `Renumber` rewrites the underlying store through
the store's own renumbering while leaving the edge-filter vector (and thus
every mask bit) untouched — the mask is not permuted to match; the
dynamic-mode `Renumber` delegates entirely to the wrapped store, the
embedded filter bits travelling with their edge records. -/
theorem claim_C9_renumber_frame :
    (∀ (fg : FilteredStaticGraph) (old_to_new : Nat → Nat),
      (fg.Renumber old_to_new).graph = fg.graph.Renumber old_to_new ∧
      (fg.Renumber old_to_new).edge_filter = fg.edge_filter ∧
      ∀ e, (fg.Renumber old_to_new).maskBit e = fg.maskBit e) ∧
    (∀ (dfg : FilteredDynamicGraph) (old_to_new : Nat → Nat),
      (dfg.Renumber old_to_new).graph
        = renumberAdj old_to_new
            (fun d => ⟨old_to_new d.target, d.data, d.filterBit⟩) dfg.graph) :=
  ⟨fun _ _ => ⟨rfl, rfl, fun _ => rfl⟩, fun _ _ => rfl⟩

/-- C10: in both modes `GetNumberOfEdges` answers the underlying store's
total edge count, ignoring the mask, and therefore strictly exceeds the
sum over all nodes of the visible out-degrees as soon as one edge is
masked out. -/
theorem claim_C10_numEdges_total :
    (∀ fg : FilteredStaticGraph, fg.GetNumberOfEdges = fg.graph.GetNumberOfEdges) ∧
    (∀ fg : FilteredStaticGraph,
      (∃ e, e < fg.GetNumberOfEdges ∧ fg.maskBit e = false) →
      ((List.range fg.GetNumberOfNodes).map fg.GetOutDegree).sum
        < fg.GetNumberOfEdges) ∧
    (∀ dfg : FilteredDynamicGraph, dfg.GetNumberOfEdges = totalLen dfg.graph) ∧
    (∀ dfg : FilteredDynamicGraph,
      (∃ e, e < dfg.GetNumberOfEdges ∧ dfg.maskBit e = false) →
      ((List.range dfg.GetNumberOfNodes).map
        (fun n => (dfg.GetAdjacentEdgeRange n).length)).sum
        < dfg.GetNumberOfEdges) := by
  refine ⟨fun _ => rfl, ?_, fun _ => rfl, ?_⟩
  · intro fg hex
    rcases hex with ⟨e0, he0, hm0⟩
    have hsum : ((List.range fg.GetNumberOfNodes).map fg.GetOutDegree).sum
        = ((List.range (totalLen fg.graph.adj)).filter
            (fun e => fg.maskBit e)).length :=
      sum_filter_blockRange (fun e => fg.maskBit e) fg.graph.adj
    rw [hsum]
    have hlt : ((List.range (totalLen fg.graph.adj)).filter
          (fun e => fg.maskBit e)).length
        < (List.range (totalLen fg.graph.adj)).length :=
      List.length_filter_lt_length_iff_exists.mpr
        ⟨e0, List.mem_range.mpr he0, by simp [hm0]⟩
    simpa using hlt
  · intro dfg hex
    rcases hex with ⟨e0, he0, hm0⟩
    have hsum : ((List.range dfg.GetNumberOfNodes).map
          (fun n => (dfg.GetAdjacentEdgeRange n).length)).sum
        = ((List.range (totalLen dfg.graph)).filter
            (fun e => dfg.maskBit e)).length :=
      sum_filter_blockRange (fun e => dfg.maskBit e) dfg.graph
    rw [hsum]
    have hlt : ((List.range (totalLen dfg.graph)).filter
          (fun e => dfg.maskBit e)).length
        < (List.range (totalLen dfg.graph)).length :=
      List.length_filter_lt_length_iff_exists.mpr
        ⟨e0, List.mem_range.mpr he0, by simp [hm0]⟩
    simpa using hlt

/-- Witness for C10 on the masked fixtures: one edge is masked in each
mode, so the total edge count strictly exceeds the visible degree sum. -/
theorem claim_C10_witness :
    ((List.range exampleMaskedView.GetNumberOfNodes).map
        exampleMaskedView.GetOutDegree).sum < exampleMaskedView.GetNumberOfEdges ∧
    ((List.range exampleDynMaskedView.GetNumberOfNodes).map
        (fun n => (exampleDynMaskedView.GetAdjacentEdgeRange n).length)).sum
      < exampleDynMaskedView.GetNumberOfEdges :=
  ⟨claim_C10_numEdges_total.2.1 exampleMaskedView ⟨1, by decide, by decide⟩,
    claim_C10_numEdges_total.2.2.2 exampleDynMaskedView ⟨0, by decide, by decide⟩⟩

end OSRM
